import Mathlib

/-!
Shallow embedding of the agentic_trader repository core:
the indicator/scoring engine (src/utils/scoring.py, src/utils/indicators.py),
the backtest metrics helpers (src/agents/backtest_agent.py) and the
evaluation/ranking step (src/agents/evaluation_agent.py).

Floating point arithmetic of the Python source is modelled over exact
rationals; pandas frames are modelled as lists of rows together with
per-frame column-presence flags, mirroring the `col in df.columns` checks
of the source.  External library calls (pandas_ta indicator kernels,
vectorbt portfolio simulation) are modelled as abstract function
parameters, since the repository treats them as collaborators.
-/

namespace AgenticTrader

/-- One bar of an indicator-extended price frame.  Fields mirror the
columns read by src/utils/scoring.py; a column that is absent from the
frame is flagged at the frame level, matching pandas column membership. -/
structure Row where
  close : ℚ
  volume : ℚ
  sma20 : ℚ
  sma50 : ℚ
  sma200 : ℚ
  atr : ℚ
  rsi14 : ℚ
  adx14 : ℚ
  stochK : ℚ
  stochD : ℚ
  doji : ℚ
  engulfing : ℚ
  hammer : ℚ
  shootingStar : ℚ
deriving DecidableEq

/-- The all-zero row, used as the out-of-range default for list indexing
(indexing in scope is always guarded by length checks, as in the source). -/
def row0 : Row :=
  ⟨0, 0, 0, 0, 0, 0, 0, 0, 0, 0, 0, 0, 0, 0⟩

/-- An indicator frame: ordered bars plus column-presence flags for the
optional indicator columns tested with `col in df.columns` in scoring.py. -/
structure Frame where
  rows : List Row
  hasSma20 : Bool
  hasSma50 : Bool
  hasSma200 : Bool
  hasAtr : Bool
  hasRsi14 : Bool
  hasAdx14 : Bool
  hasStochK : Bool
  hasStochD : Bool
  hasDoji : Bool
  hasEngulfing : Bool
  hasHammer : Bool
  hasShootingStar : Bool
deriving DecidableEq

/-- df.iloc[-1], the latest bar. -/
def latestRow (df : Frame) : Row :=
  df.rows.getLastD row0

/-- Arithmetic mean of a list, as pandas Series.mean on a nonempty series. -/
def meanQ (xs : List ℚ) : ℚ :=
  xs.sum / xs.length

/-- The last n elements of a list, as iloc[-n:]. -/
def lastN (n : ℕ) (xs : List ℚ) : List ℚ :=
  xs.drop (xs.length - n)

/-! ## StockScoring.momentum_score -/

/-- Percentage change of close over the last p bars:
(close.iloc[-1] / close.iloc[-p-1] - 1) * 100. -/
def pctChange (df : Frame) (p : ℕ) : ℚ :=
  ((latestRow df).close / (df.rows.getD (df.rows.length - p - 1) row0).close - 1) * 100

/-- The momentum periods (5, 10, 20, 60) that have enough history
(len(df) > period). -/
def momentumPeriods (df : Frame) : List ℕ :=
  [5, 10, 20, 60].filter (fun p => df.rows.length > p)

/-- momentum_score: the momentum_overall entry, present iff at least one
period qualifies; it is the average of the per-period percent changes. -/
def momentumOverall (df : Frame) : Option ℚ :=
  let ps := momentumPeriods df
  if ps.isEmpty then none
  else some ((ps.map (pctChange df)).sum / ps.length)

/-! ## StockScoring.trend_score -/

/-- SMA alignment term: plus or minus 1 per pairwise SMA comparison,
0 when the compared columns are absent. -/
def smaAlignment (df : Frame) : ℚ :=
  (if df.hasSma20 && df.hasSma50 then
    (if (latestRow df).sma20 > (latestRow df).sma50 then 1 else -1)
   else 0)
  + (if df.hasSma50 && df.hasSma200 then
      (if (latestRow df).sma50 > (latestRow df).sma200 then 1 else -1)
     else 0)

/-- Price versus moving-average term: plus or minus 1 per comparison of
close with sma20 and sma200, 0 when the column is absent. -/
def priceVsMa (df : Frame) : ℚ :=
  (if df.hasSma20 then
    (if (latestRow df).close > (latestRow df).sma20 then 1 else -1)
   else 0)
  + (if df.hasSma200 then
      (if (latestRow df).close > (latestRow df).sma200 then 1 else -1)
     else 0)

/-- ADX trend-strength tier: 2 if ADX over 30, 1 if over 20, else 0;
0 when the ADX_14 column is absent. -/
def adxScoreVal (df : Frame) : ℚ :=
  if df.hasAdx14 then
    (if (latestRow df).adx14 > 30 then 2
     else if (latestRow df).adx14 > 20 then 1
     else 0)
  else 0

/-- trend_score: 0 below 50 bars, otherwise the weighted combination
((alignment/2)*30 + (price_vs_ma/2)*30 + adx*40) / 100. -/
def trendScoreVal (df : Frame) : ℚ :=
  if df.rows.length < 50 then 0
  else ((smaAlignment df / 2) * 30 + (priceVsMa df / 2) * 30 + adxScoreVal df * 40) / 100

/-! ## StockScoring.volatility_score -/

/-- volatility_score returns a one-entry dict in the source; it is modelled
as an association list so that the combiner's .get with default is honest. -/
def volatilityScoreDict (df : Frame) : List (String × ℚ) :=
  if df.rows.length < 20 ∨ df.hasAtr = false then [("volatility_score", 0)]
  else [("volatility_score", min ((latestRow df).atr / (latestRow df).close * 100 / 5) 1)]

/-! ## StockScoring.volume_score -/

/-- volume_score: 0 below 20 bars, else min((recent 5-bar mean volume /
20-bar mean volume) / 2, 1). -/
def volumeScoreVal (df : Frame) : ℚ :=
  if df.rows.length < 20 then 0
  else
    let vols := df.rows.map (fun r => r.volume)
    min (meanQ (lastN 5 vols) / meanQ (lastN 20 vols) / 2) 1

/-! ## StockScoring.oscillator_score -/

/-- RSI part of oscillator_score: 0.8 oversold, 0.2 overbought, 0.5 neutral. -/
def rsiScoreVal (df : Frame) : ℚ :=
  if (latestRow df).rsi14 < 30 then 4/5
  else if (latestRow df).rsi14 > 70 then 1/5
  else 1/2

/-- Stochastic part of oscillator_score, defaulting to 0.5 when the
stochastic columns are absent. -/
def stochScoreVal (df : Frame) : ℚ :=
  if df.hasStochK && df.hasStochD then
    (if (latestRow df).stochK < 20 ∧ (latestRow df).stochD < 20 then 4/5
     else if (latestRow df).stochK > 80 ∧ (latestRow df).stochD > 80 then 1/5
     else 1/2)
  else 1/2

/-- oscillator_score: 0.5 when below 14 bars or rsi14 absent, else the
average of the RSI and stochastic parts. -/
def oscillatorScoreVal (df : Frame) : ℚ :=
  if df.rows.length < 14 ∨ df.hasRsi14 = false then 1/2
  else (rsiScoreVal df + stochScoreVal df) / 2

/-! ## StockScoring.pattern_score -/

/-- The nonzero pattern-flag values of one row, restricted to present
columns, in the field order of the source. -/
def patternFieldVals (df : Frame) (r : Row) : List ℚ :=
  (if df.hasDoji ∧ r.doji ≠ 0 then [r.doji] else [])
  ++ (if df.hasEngulfing ∧ r.engulfing ≠ 0 then [r.engulfing] else [])
  ++ (if df.hasHammer ∧ r.hammer ≠ 0 then [r.hammer] else [])
  ++ (if df.hasShootingStar ∧ r.shootingStar ≠ 0 then [r.shootingStar] else [])

/-- All nonzero pattern-flag values over the rows scanned by the source:
iloc[-i] for i in range(1, min(4, len(df))). -/
def patternVals (df : Frame) : List ℚ :=
  ((List.range' 1 (min 4 df.rows.length - 1)).map
    (fun i => patternFieldVals df (df.rows.getD (df.rows.length - i) row0))).flatten

/-- pattern_score: 0.5 below 5 bars or with no fired patterns; otherwise
0.5 + sum/(count*2), clamped to the unit interval. -/
def patternScoreVal (df : Frame) : ℚ :=
  if df.rows.length < 5 then 1/2
  else
    let vals := patternVals df
    if vals.length > 0 then
      max 0 (min 1 (1/2 + vals.sum / (vals.length * 2)))
    else 1/2

/-! ## StockScoring.calculate_overall_score -/

/-- Momentum normalized onto the unit interval by mapping plus-minus 10
percent; 0.5 when no momentum_overall entry exists. -/
def momentumNorm (df : Frame) : ℚ :=
  match momentumOverall df with
  | none => 1/2
  | some m => max 0 (min 1 ((m + 10) / 20))

/-- The combiner's volatility component: one minus
volatility.get(volatility_score, 0.5). -/
def volatilityComponent (df : Frame) : ℚ :=
  1 - ((volatilityScoreDict df).lookup "volatility_score").getD (1/2)

/-- The weighted sum of the six component scores, with the fixed weights
momentum 0.25, trend 0.30, volatility 0.10, volume 0.10, oscillator 0.15,
pattern 0.10. -/
def weightedScore (df : Frame) : ℚ :=
  momentumNorm df * (1/4) + trendScoreVal df * (3/10) + volatilityComponent df * (1/10)
  + volumeScoreVal df * (1/10) + oscillatorScoreVal df * (3/20) + patternScoreVal df * (1/10)

/-- Signal derivation from the scaled score. -/
def signalOf (score : ℚ) : String :=
  if score > 70 then "buy" else if score < 30 then "sell" else "neutral"

/-- The component_scores mapping of the result dict. -/
def componentsOf (df : Frame) : List (String × ℚ) :=
  [("momentum", momentumNorm df), ("trend", trendScoreVal df),
   ("volatility", volatilityComponent df), ("volume", volumeScoreVal df),
   ("oscillator", oscillatorScoreVal df), ("pattern", patternScoreVal df)]

/-- Result of calculate_overall_score; componentScores is none exactly when
the function returned early without computing the sub-scores. -/
structure ScoreResult where
  overall_score : ℚ
  signal : Option String
  error : Option String
  componentScores : Option (List (String × ℚ))
deriving DecidableEq

/-- calculate_overall_score: early error returns for an empty frame and
for fewer than 60 bars, else the weighted score scaled to 0..100 with the
derived signal and the component scores. -/
def calculateOverallScore (df : Frame) : ScoreResult :=
  if df.rows.length = 0 then ⟨0, none, some "Invalid or empty dataframe", none⟩
  else if df.rows.length < 60 then ⟨0, none, some "Insufficient data points", none⟩
  else
    let score := weightedScore df * 100
    ⟨score, some (signalOf score), none, some (componentsOf df)⟩

/-! ## Concrete frames used as counterexamples and witnesses -/

/-- A flat bar: close 100, volume 100, every indicator cell 0. -/
def baseRowA : Row :=
  { row0 with close := 100, volume := 100 }

/-- A flat bar with tripled volume. -/
def volRowA : Row :=
  { row0 with close := 100, volume := 300 }

/-- A tripled-volume bar that also fires the hammer pattern flag. -/
def patRowA : Row :=
  { row0 with close := 100, volume := 300, hammer := 1 }

/-- The final bar of the score-overflow frame: strong momentum, fully
aligned SMAs, strong ADX, zero ATR, oversold RSI and stochastic. -/
def lastRowA : Row :=
  { close := 120, volume := 300, sma20 := 3, sma50 := 2, sma200 := 1,
    atr := 0, rsi14 := 25, adx14 := 35, stochK := 10, stochD := 10,
    doji := 0, engulfing := 0, hammer := 1, shootingStar := 0 }

/-- A 60-bar frame on which every component score is at its extreme
favourable value; calculate_overall_score yields 109 on it. -/
def overflowFrame : Frame :=
  { rows := List.replicate 55 baseRowA ++ [volRowA, volRowA, patRowA, patRowA, lastRowA],
    hasSma20 := true, hasSma50 := true, hasSma200 := true, hasAtr := true,
    hasRsi14 := true, hasAdx14 := true, hasStochK := true, hasStochD := true,
    hasDoji := false, hasEngulfing := false, hasHammer := true,
    hasShootingStar := false }

/-- A 50-bar frame with fully aligned SMAs and strong ADX on the last bar;
trend_score yields 1.4 on it. -/
def trendOverflowFrame : Frame :=
  { rows := List.replicate 49 baseRowA ++
      [{ row0 with close := 100, sma20 := 3, sma50 := 2, sma200 := 1, adx14 := 35 }],
    hasSma20 := true, hasSma50 := true, hasSma200 := true, hasAtr := false,
    hasRsi14 := false, hasAdx14 := true, hasStochK := false, hasStochD := false,
    hasDoji := false, hasEngulfing := false, hasHammer := false,
    hasShootingStar := false }

/-- A 59-bar frame, one bar short of the 60-bar requirement. -/
def shortFrame : Frame :=
  { rows := List.replicate 59 baseRowA,
    hasSma20 := false, hasSma50 := false, hasSma200 := false, hasAtr := false,
    hasRsi14 := false, hasAdx14 := false, hasStochK := false, hasStochD := false,
    hasDoji := false, hasEngulfing := false, hasHammer := false,
    hasShootingStar := false }

/-- A 60-bar frame whose atr column is absent. -/
def noAtrFrame : Frame :=
  { rows := List.replicate 60 baseRowA,
    hasSma20 := false, hasSma50 := false, hasSma200 := false, hasAtr := false,
    hasRsi14 := false, hasAdx14 := false, hasStochK := false, hasStochD := false,
    hasDoji := false, hasEngulfing := false, hasHammer := false,
    hasShootingStar := false }

set_option maxRecDepth 4000

/-! ## Generic lemmas about the scoring components -/

lemma getLastD_mem {α : Type} (l : List α) (d : α) (h : l ≠ []) : l.getLastD d ∈ l := by
  rw [List.getLastD_eq_getLast?, List.getLast?_eq_getLast l h]
  exact List.getLast_mem h

lemma latestRow_mem (df : Frame) (h : df.rows ≠ []) : latestRow df ∈ df.rows :=
  getLastD_mem df.rows row0 h

lemma lookup_volKey (v : ℚ) :
    (([("volatility_score", v)] : List (String × ℚ)).lookup "volatility_score") = some v := rfl

lemma momentumNorm_bounds (df : Frame) : 0 ≤ momentumNorm df ∧ momentumNorm df ≤ 1 := by
  unfold momentumNorm
  rcases momentumOverall df with _ | m
  · norm_num
  · refine ⟨le_max_left 0 _, max_le (by norm_num) (min_le_left 1 _)⟩

lemma smaAlignment_bounds (df : Frame) : -2 ≤ smaAlignment df ∧ smaAlignment df ≤ 2 := by
  unfold smaAlignment
  split_ifs <;> norm_num

lemma priceVsMa_bounds (df : Frame) : -2 ≤ priceVsMa df ∧ priceVsMa df ≤ 2 := by
  unfold priceVsMa
  split_ifs <;> norm_num

lemma adxScoreVal_bounds (df : Frame) : 0 ≤ adxScoreVal df ∧ adxScoreVal df ≤ 2 := by
  unfold adxScoreVal
  split_ifs <;> norm_num

lemma trendScoreVal_bounds (df : Frame) :
    -(3/5) ≤ trendScoreVal df ∧ trendScoreVal df ≤ 7/5 := by
  unfold trendScoreVal
  split_ifs
  · norm_num
  · obtain ⟨a1, a2⟩ := smaAlignment_bounds df
    obtain ⟨p1, p2⟩ := priceVsMa_bounds df
    obtain ⟨x1, x2⟩ := adxScoreVal_bounds df
    constructor <;> linarith

lemma volatilityComponent_bounds (df : Frame)
    (hc : 0 < (latestRow df).close) (ha : 0 ≤ (latestRow df).atr) :
    0 ≤ volatilityComponent df ∧ volatilityComponent df ≤ 1 := by
  unfold volatilityComponent volatilityScoreDict
  split_ifs
  · rw [lookup_volKey]
    norm_num
  · rw [lookup_volKey]
    have h0 : (0:ℚ) ≤ (latestRow df).atr / (latestRow df).close * 100 / 5 := by
      have := div_nonneg ha hc.le
      positivity
    have hmin : (0:ℚ) ≤ min ((latestRow df).atr / (latestRow df).close * 100 / 5) 1 :=
      le_min h0 (by norm_num)
    have hmax : min ((latestRow df).atr / (latestRow df).close * 100 / 5) 1 ≤ 1 :=
      min_le_right _ 1
    simp only [Option.getD_some]
    constructor <;> linarith

lemma meanQ_pos (xs : List ℚ) (h : xs ≠ []) (hx : ∀ x ∈ xs, 0 < x) : 0 < meanQ xs := by
  unfold meanQ
  have hs : 0 < xs.sum := List.sum_pos xs hx h
  have hl : 0 < (xs.length : ℚ) := by
    have := List.length_pos.mpr h
    exact_mod_cast this
  positivity

lemma lastN_ne_nil (n : ℕ) (xs : List ℚ) (hn : 0 < n) (h : n ≤ xs.length) :
    lastN n xs ≠ [] := by
  unfold lastN
  intro hc
  have := congrArg List.length hc
  rw [List.length_drop] at this
  simp at this
  omega

lemma lastN_subset (n : ℕ) (xs : List ℚ) : ∀ x ∈ lastN n xs, x ∈ xs := by
  intro x hx
  exact List.drop_subset _ xs hx

lemma volumeScoreVal_bounds (df : Frame)
    (h20 : 20 ≤ df.rows.length) (hv : ∀ r ∈ df.rows, 0 < r.volume) :
    0 ≤ volumeScoreVal df ∧ volumeScoreVal df ≤ 1 := by
  unfold volumeScoreVal
  rw [if_neg (by omega)]
  have hvols : ∀ x ∈ df.rows.map (fun r => r.volume), 0 < x := by
    intro x hx
    obtain ⟨r, hr, rfl⟩ := List.mem_map.mp hx
    exact hv r hr
  have hlen : (df.rows.map (fun r => r.volume)).length = df.rows.length := by
    simp
  have h5 : 0 < meanQ (lastN 5 (df.rows.map (fun r => r.volume))) := by
    refine meanQ_pos _ (lastN_ne_nil 5 _ (by norm_num) (by omega)) ?_
    intro x hx
    exact hvols x (lastN_subset 5 _ x hx)
  have hw : 0 < meanQ (lastN 20 (df.rows.map (fun r => r.volume))) := by
    refine meanQ_pos _ (lastN_ne_nil 20 _ (by norm_num) (by omega)) ?_
    intro x hx
    exact hvols x (lastN_subset 20 _ x hx)
  constructor
  · exact le_min (by positivity) (by norm_num)
  · exact min_le_right _ 1

lemma rsiScoreVal_bounds (df : Frame) : 1/5 ≤ rsiScoreVal df ∧ rsiScoreVal df ≤ 4/5 := by
  unfold rsiScoreVal
  split_ifs <;> norm_num

lemma stochScoreVal_bounds (df : Frame) : 1/5 ≤ stochScoreVal df ∧ stochScoreVal df ≤ 4/5 := by
  unfold stochScoreVal
  split_ifs <;> norm_num

lemma oscillatorScoreVal_bounds (df : Frame) :
    1/5 ≤ oscillatorScoreVal df ∧ oscillatorScoreVal df ≤ 4/5 := by
  unfold oscillatorScoreVal
  split_ifs
  · norm_num
  · obtain ⟨r1, r2⟩ := rsiScoreVal_bounds df
    obtain ⟨s1, s2⟩ := stochScoreVal_bounds df
    constructor <;> linarith

lemma clamp01_bounds (x : ℚ) : 0 ≤ max 0 (min 1 x) ∧ max 0 (min 1 x) ≤ 1 :=
  ⟨le_max_left 0 _, max_le (by norm_num) (min_le_left 1 x)⟩

lemma patternScoreVal_bounds (df : Frame) :
    0 ≤ patternScoreVal df ∧ patternScoreVal df ≤ 1 := by
  by_cases h5 : df.rows.length < 5
  · simp only [patternScoreVal, if_pos h5]
    norm_num
  · by_cases hc : (patternVals df).length > 0
    · simp only [patternScoreVal, if_neg h5, if_pos hc]
      exact clamp01_bounds _
    · simp only [patternScoreVal, if_neg h5, if_neg hc]
      norm_num

lemma calculateOverallScore_of_ge60 (df : Frame) (h : 60 ≤ df.rows.length) :
    calculateOverallScore df =
      ⟨weightedScore df * 100, some (signalOf (weightedScore df * 100)),
        none, some (componentsOf df)⟩ := by
  unfold calculateOverallScore
  rw [if_neg (by omega), if_neg (by omega)]

/-- Claim C3 (amended): for every frame with at least 50 bars, trend_score
equals ((alignment/2)*30 + (price_position/2)*30 + adx_tier*40)/100 with the
alignment, price-position and ADX-tier terms of the source, and the result
lands in [-3/5, 7/5] (not in [0,1]); for fewer than 50 bars it is 0. -/
theorem claim_c3 (df : Frame) :
    (df.rows.length < 50 → trendScoreVal df = 0)
    ∧ (50 ≤ df.rows.length →
        trendScoreVal df =
          ((smaAlignment df / 2) * 30 + (priceVsMa df / 2) * 30 + adxScoreVal df * 40) / 100
        ∧ -(3/5) ≤ trendScoreVal df ∧ trendScoreVal df ≤ 7/5) := by
  constructor
  · intro h
    unfold trendScoreVal
    rw [if_pos h]
  · intro h
    refine ⟨?_, trendScoreVal_bounds df⟩
    unfold trendScoreVal
    rw [if_neg (by omega)]

/-- Witness for C3 at a concrete 50-bar frame. -/
theorem claim_c3_witness :
    trendScoreVal trendOverflowFrame =
      ((smaAlignment trendOverflowFrame / 2) * 30 + (priceVsMa trendOverflowFrame / 2) * 30
        + adxScoreVal trendOverflowFrame * 40) / 100
    ∧ -(3/5) ≤ trendScoreVal trendOverflowFrame ∧ trendScoreVal trendOverflowFrame ≤ 7/5 :=
  (claim_c3 trendOverflowFrame).2 (by decide)

/-- Counterexample for C3 as stated: on a 50-bar frame with fully aligned
SMAs, price above both moving averages and ADX above 30, trend_score is
1.4, outside the claimed 0..1 range. -/
theorem claim_c3_cex :
    trendScoreVal trendOverflowFrame = 7/5 ∧ ¬ trendScoreVal trendOverflowFrame ≤ 1 := by
  have hlast : latestRow trendOverflowFrame =
      { row0 with close := 100, sma20 := 3, sma50 := 2, sma200 := 1, adx14 := 35 } := rfl
  have hf1 : trendOverflowFrame.hasSma20 = true := rfl
  have hf2 : trendOverflowFrame.hasSma50 = true := rfl
  have hf3 : trendOverflowFrame.hasSma200 = true := rfl
  have hf4 : trendOverflowFrame.hasAdx14 = true := rfl
  have ha : smaAlignment trendOverflowFrame = 2 := by
    unfold smaAlignment
    rw [hlast, hf1, hf2, hf3]
    norm_num [row0]
  have hp : priceVsMa trendOverflowFrame = 2 := by
    unfold priceVsMa
    rw [hlast, hf1, hf3]
    norm_num [row0]
  have hx : adxScoreVal trendOverflowFrame = 2 := by
    unfold adxScoreVal
    rw [hlast, hf4]
    norm_num [row0]
  have ht : trendScoreVal trendOverflowFrame = 7/5 := by
    unfold trendScoreVal
    rw [if_neg (by decide), ha, hp, hx]
    norm_num
  exact ⟨ht, by rw [ht]; norm_num⟩

/-- Claim C5 (amended): below 60 bars calculate_overall_score returns
overall_score 0 with no component scores computed, and the error message
is the source's Insufficient data points (Invalid or empty dataframe when
the frame is empty), not the spec's insufficient data. -/
theorem claim_c5 (df : Frame) (h : df.rows.length < 60) :
    (calculateOverallScore df).overall_score = 0
    ∧ (calculateOverallScore df).componentScores = none
    ∧ (calculateOverallScore df).error =
        some (if df.rows.length = 0 then "Invalid or empty dataframe"
              else "Insufficient data points") := by
  unfold calculateOverallScore
  split_ifs <;> simp_all

/-- Witness for C5 at a concrete 59-bar frame. -/
theorem claim_c5_witness :
    (calculateOverallScore shortFrame).overall_score = 0
    ∧ (calculateOverallScore shortFrame).componentScores = none
    ∧ (calculateOverallScore shortFrame).error =
        some (if shortFrame.rows.length = 0 then "Invalid or empty dataframe"
              else "Insufficient data points") :=
  claim_c5 shortFrame (by decide)

/-- Counterexample for C5 as stated: on a 59-bar frame the returned error
string is Insufficient data points, not the claimed insufficient data. -/
theorem claim_c5_cex :
    calculateOverallScore shortFrame = ⟨0, none, some "Insufficient data points", none⟩
    ∧ "Insufficient data points" ≠ "insufficient data" := by
  constructor
  · rfl
  · decide

/-- Claim C10: with at least 60 bars and no atr column, volatility_score
returns a dict whose volatility_score entry is exactly 0, the combiner's
volatility component becomes 1 and contributes the full 0.10 weight (10
points) to the overall score, and the combiner's 0.5 default is never
reached because the volatility_score key is always present. -/
theorem claim_c10 (df : Frame) (h60 : 60 ≤ df.rows.length) (ha : df.hasAtr = false) :
    (volatilityScoreDict df).lookup "volatility_score" = some 0
    ∧ volatilityComponent df = 1
    ∧ (calculateOverallScore df).overall_score =
        (momentumNorm df * (1/4) + trendScoreVal df * (3/10) + volumeScoreVal df * (1/10)
          + oscillatorScoreVal df * (3/20) + patternScoreVal df * (1/10)) * 100 + 10
    ∧ (∀ g : Frame, ((volatilityScoreDict g).lookup "volatility_score").isSome = true) := by
  have hdict : volatilityScoreDict df = [("volatility_score", 0)] := by
    unfold volatilityScoreDict
    rw [if_pos (Or.inr ha)]
  have hlook : (volatilityScoreDict df).lookup "volatility_score" = some 0 := by
    rw [hdict]
    exact lookup_volKey 0
  have hcomp : volatilityComponent df = 1 := by
    unfold volatilityComponent
    rw [hlook]
    norm_num
  refine ⟨hlook, hcomp, ?_, ?_⟩
  · rw [calculateOverallScore_of_ge60 df h60]
    show weightedScore df * 100 = _
    unfold weightedScore
    rw [hcomp]
    ring
  · intro g
    unfold volatilityScoreDict
    split_ifs <;> rfl

/-- Witness for C10 at a concrete 60-bar frame without an atr column. -/
theorem claim_c10_witness :
    (volatilityScoreDict noAtrFrame).lookup "volatility_score" = some 0
    ∧ volatilityComponent noAtrFrame = 1
    ∧ (calculateOverallScore noAtrFrame).overall_score =
        (momentumNorm noAtrFrame * (1/4) + trendScoreVal noAtrFrame * (3/10)
          + volumeScoreVal noAtrFrame * (1/10) + oscillatorScoreVal noAtrFrame * (3/20)
          + patternScoreVal noAtrFrame * (1/10)) * 100 + 10
    ∧ (∀ g : Frame, ((volatilityScoreDict g).lookup "volatility_score").isSome = true) :=
  claim_c10 noAtrFrame (by decide) (by decide)

/-- Claim C1 (amended): for every frame with at least 60 bars, positive
closes and volumes and a nonnegative latest ATR, the overall score is
bounded in [-15, 109] (not [0, 100]), and the signal is buy iff the score
exceeds 70, sell iff it is below 30, else neutral. -/
theorem claim_c1 (df : Frame) (h60 : 60 ≤ df.rows.length)
    (hclose : ∀ r ∈ df.rows, 0 < r.close) (hvol : ∀ r ∈ df.rows, 0 < r.volume)
    (hatr : 0 ≤ (latestRow df).atr) :
    (-15 ≤ (calculateOverallScore df).overall_score
      ∧ (calculateOverallScore df).overall_score ≤ 109)
    ∧ ((calculateOverallScore df).signal = some "buy"
        ↔ 70 < (calculateOverallScore df).overall_score)
    ∧ ((calculateOverallScore df).signal = some "sell"
        ↔ (calculateOverallScore df).overall_score < 30)
    ∧ ((calculateOverallScore df).signal = some "neutral"
        ↔ (30 ≤ (calculateOverallScore df).overall_score
            ∧ (calculateOverallScore df).overall_score ≤ 70)) := by
  have hne : df.rows ≠ [] := by
    intro h
    rw [h] at h60
    simp at h60
  have hc : 0 < (latestRow df).close := hclose _ (latestRow_mem df hne)
  obtain ⟨m1, m2⟩ := momentumNorm_bounds df
  obtain ⟨t1, t2⟩ := trendScoreVal_bounds df
  obtain ⟨v1, v2⟩ := volatilityComponent_bounds df hc hatr
  obtain ⟨u1, u2⟩ := volumeScoreVal_bounds df (by omega) hvol
  obtain ⟨o1, o2⟩ := oscillatorScoreVal_bounds df
  obtain ⟨p1, p2⟩ := patternScoreVal_bounds df
  have hb1 : -(3/20) ≤ weightedScore df := by
    unfold weightedScore
    linarith
  have hb2 : weightedScore df ≤ 109/100 := by
    unfold weightedScore
    linarith
  rw [calculateOverallScore_of_ge60 df h60]
  refine ⟨⟨?_, ?_⟩, ?_, ?_, ?_⟩
  · show -15 ≤ weightedScore df * 100
    linarith
  · show weightedScore df * 100 ≤ 109
    linarith
  · show some (signalOf (weightedScore df * 100)) = some "buy" ↔ 70 < weightedScore df * 100
    unfold signalOf
    by_cases h1 : weightedScore df * 100 > 70
    · rw [if_pos h1]
      exact ⟨fun _ => h1, fun _ => rfl⟩
    · rw [if_neg h1]
      constructor
      · intro h
        by_cases h2 : weightedScore df * 100 < 30
        · rw [if_pos h2] at h
          exact absurd (Option.some.inj h) (by decide)
        · rw [if_neg h2] at h
          exact absurd (Option.some.inj h) (by decide)
      · intro h
        exact absurd h h1
  · show some (signalOf (weightedScore df * 100)) = some "sell" ↔ weightedScore df * 100 < 30
    unfold signalOf
    by_cases h1 : weightedScore df * 100 > 70
    · rw [if_pos h1]
      constructor
      · intro h
        exact absurd (Option.some.inj h) (by decide)
      · intro h
        linarith
    · rw [if_neg h1]
      by_cases h2 : weightedScore df * 100 < 30
      · rw [if_pos h2]
        exact ⟨fun _ => h2, fun _ => rfl⟩
      · rw [if_neg h2]
        constructor
        · intro h
          exact absurd (Option.some.inj h) (by decide)
        · intro h
          exact absurd h h2
  · show some (signalOf (weightedScore df * 100)) = some "neutral"
        ↔ (30 ≤ weightedScore df * 100 ∧ weightedScore df * 100 ≤ 70)
    unfold signalOf
    by_cases h1 : weightedScore df * 100 > 70
    · rw [if_pos h1]
      constructor
      · intro h
        exact absurd (Option.some.inj h) (by decide)
      · intro h
        linarith [h.2]
    · rw [if_neg h1]
      by_cases h2 : weightedScore df * 100 < 30
      · rw [if_pos h2]
        constructor
        · intro h
          exact absurd (Option.some.inj h) (by decide)
        · intro h
          linarith [h.1]
      · rw [if_neg h2]
        push_neg at h1 h2
        exact ⟨fun _ => ⟨h2, h1⟩, fun _ => rfl⟩

/-- Witness for C1 at a concrete 60-bar frame with positive closes and
volumes and zero ATR. -/
theorem claim_c1_witness :
    (-15 ≤ (calculateOverallScore overflowFrame).overall_score
      ∧ (calculateOverallScore overflowFrame).overall_score ≤ 109)
    ∧ ((calculateOverallScore overflowFrame).signal = some "buy"
        ↔ 70 < (calculateOverallScore overflowFrame).overall_score)
    ∧ ((calculateOverallScore overflowFrame).signal = some "sell"
        ↔ (calculateOverallScore overflowFrame).overall_score < 30)
    ∧ ((calculateOverallScore overflowFrame).signal = some "neutral"
        ↔ (30 ≤ (calculateOverallScore overflowFrame).overall_score
            ∧ (calculateOverallScore overflowFrame).overall_score ≤ 70)) :=
  claim_c1 overflowFrame (by decide) (by decide) (by decide) (by decide)

/-! ## Evaluation of the overflow frame -/

lemma overflowFrame_latest : latestRow overflowFrame = lastRowA := rfl

lemma overflowFrame_momPeriods : momentumPeriods overflowFrame = [5, 10, 20] := rfl

lemma overflowFrame_pct5 : pctChange overflowFrame 5 = 20 := by
  have h1 : (latestRow overflowFrame).close = 120 := rfl
  have h2 : (overflowFrame.rows.getD (overflowFrame.rows.length - 5 - 1) row0).close = 100 := rfl
  unfold pctChange
  rw [h1, h2]
  norm_num

lemma overflowFrame_pct10 : pctChange overflowFrame 10 = 20 := by
  have h1 : (latestRow overflowFrame).close = 120 := rfl
  have h2 : (overflowFrame.rows.getD (overflowFrame.rows.length - 10 - 1) row0).close = 100 := rfl
  unfold pctChange
  rw [h1, h2]
  norm_num

lemma overflowFrame_pct20 : pctChange overflowFrame 20 = 20 := by
  have h1 : (latestRow overflowFrame).close = 120 := rfl
  have h2 : (overflowFrame.rows.getD (overflowFrame.rows.length - 20 - 1) row0).close = 100 := rfl
  unfold pctChange
  rw [h1, h2]
  norm_num

lemma overflowFrame_momentum : momentumOverall overflowFrame = some 20 := by
  simp only [momentumOverall, overflowFrame_momPeriods, List.isEmpty_cons, List.map_cons,
    List.map_nil, List.sum_cons, List.sum_nil, List.length_cons, List.length_nil,
    overflowFrame_pct5, overflowFrame_pct10, overflowFrame_pct20]
  norm_num

lemma overflowFrame_momNorm : momentumNorm overflowFrame = 1 := by
  unfold momentumNorm
  rw [overflowFrame_momentum]
  norm_num [min_def, max_def]

lemma overflowFrame_trend : trendScoreVal overflowFrame = 7/5 := by
  have ha : smaAlignment overflowFrame = 2 := by
    unfold smaAlignment
    rw [overflowFrame_latest, show overflowFrame.hasSma20 = true from rfl,
      show overflowFrame.hasSma50 = true from rfl,
      show overflowFrame.hasSma200 = true from rfl]
    norm_num [lastRowA]
  have hp : priceVsMa overflowFrame = 2 := by
    unfold priceVsMa
    rw [overflowFrame_latest, show overflowFrame.hasSma20 = true from rfl,
      show overflowFrame.hasSma200 = true from rfl]
    norm_num [lastRowA]
  have hx : adxScoreVal overflowFrame = 2 := by
    unfold adxScoreVal
    rw [overflowFrame_latest, show overflowFrame.hasAdx14 = true from rfl]
    norm_num [lastRowA]
  unfold trendScoreVal
  rw [if_neg (by decide), ha, hp, hx]
  norm_num

lemma overflowFrame_volComp : volatilityComponent overflowFrame = 1 := by
  have hd : volatilityScoreDict overflowFrame = [("volatility_score", 0)] := by
    unfold volatilityScoreDict
    rw [if_neg (by decide), overflowFrame_latest]
    norm_num [lastRowA, min_def]
  unfold volatilityComponent
  rw [hd, lookup_volKey]
  norm_num

lemma overflowFrame_last5 :
    lastN 5 (overflowFrame.rows.map (fun r => r.volume)) = [300, 300, 300, 300, 300] := rfl

lemma overflowFrame_last20 :
    lastN 20 (overflowFrame.rows.map (fun r => r.volume)) =
      List.replicate 15 100 ++ [300, 300, 300, 300, 300] := rfl

lemma overflowFrame_volume : volumeScoreVal overflowFrame = 1 := by
  simp only [volumeScoreVal]
  rw [if_neg (by decide), overflowFrame_last5, overflowFrame_last20]
  unfold meanQ
  simp only [List.sum_cons, List.sum_nil, List.sum_append, List.sum_replicate,
    List.length_cons, List.length_nil, List.length_append, List.length_replicate,
    nsmul_eq_mul]
  norm_num [min_def]

lemma overflowFrame_osc : oscillatorScoreVal overflowFrame = 4/5 := by
  have hr : rsiScoreVal overflowFrame = 4/5 := by
    unfold rsiScoreVal
    rw [overflowFrame_latest]
    norm_num [lastRowA]
  have hs : stochScoreVal overflowFrame = 4/5 := by
    unfold stochScoreVal
    rw [overflowFrame_latest, show overflowFrame.hasStochK = true from rfl,
      show overflowFrame.hasStochD = true from rfl]
    norm_num [lastRowA]
  unfold oscillatorScoreVal
  rw [if_neg (by decide), hr, hs]
  norm_num

lemma overflowFrame_patternVals : patternVals overflowFrame = [1, 1, 1] := rfl

lemma overflowFrame_pattern : patternScoreVal overflowFrame = 1 := by
  simp only [patternScoreVal]
  rw [if_neg (by decide), overflowFrame_patternVals]
  norm_num [min_def, max_def]

/-- Counterexample for C1 as stated: on a concrete 60-bar frame the
overall score is 109, outside the claimed [0, 100]. -/
theorem claim_c1_cex :
    (calculateOverallScore overflowFrame).overall_score = 109
    ∧ ¬ (calculateOverallScore overflowFrame).overall_score ≤ 100 := by
  have h : (calculateOverallScore overflowFrame).overall_score = 109 := by
    rw [calculateOverallScore_of_ge60 overflowFrame (by decide)]
    show weightedScore overflowFrame * 100 = 109
    unfold weightedScore
    rw [overflowFrame_momNorm, overflowFrame_trend, overflowFrame_volComp,
      overflowFrame_volume, overflowFrame_osc, overflowFrame_pattern]
    norm_num
  refine ⟨h, ?_⟩
  rw [h]
  norm_num

/-! ## Backtest risk-metric helpers (src/agents/backtest_agent.py)

The helpers operate on daily-return series; numpy float arithmetic is
modelled over exact rationals, and the float infinity returned by the
Omega ratio is modelled by an explicit value type. -/

/-- Insert into an ascending-sorted list of rationals. -/
def insSortedQ (x : ℚ) : List ℚ → List ℚ
  | [] => [x]
  | y :: ys => if x ≤ y then x :: y :: ys else y :: insSortedQ x ys

/-- Ascending sort, modelling the sort inside np.percentile. -/
def sortQ : List ℚ → List ℚ
  | [] => []
  | x :: xs => insSortedQ x (sortQ xs)

/-- np.percentile with the default linear interpolation, over exact
rationals; 0 on the empty list (every caller in scope guards emptiness
first). -/
def percentileQ (xs : List ℚ) (p : ℚ) : ℚ :=
  let s := sortQ xs
  let n := s.length
  if n = 0 then 0
  else
    let h : ℚ := p * (n - 1) / 100
    let i : ℕ := (⌊h⌋).toNat
    let lo := s.getD i 0
    let hi := s.getD (min (i + 1) (n - 1)) 0
    lo + (h - i) * (hi - lo)

/-- calculate_var: absolute value of the (100*(1-confidence)) percentile
of returns, 0 on an empty series. -/
def calcVar (returns : List ℚ) (conf : ℚ) : ℚ :=
  if returns.length = 0 then 0
  else |percentileQ returns (100 * (1 - conf))|

/-- calculate_cvar: absolute mean of the returns at or below minus VaR,
falling back to VaR when that tail set is empty; 0 on an empty series. -/
def calcCvar (returns : List ℚ) (conf : ℚ) : ℚ :=
  if returns.length = 0 then 0
  else
    let v := calcVar returns conf
    let tset := returns.filter (fun r => r ≤ -v)
    if tset.length > 0 then |meanQ tset| else v

/-- A float result that may be the float infinity. -/
inductive PyVal where
  | val (q : ℚ)
  | inf
deriving DecidableEq

/-- calculate_omega_ratio: sum of gains over absolute sum of losses,
the float infinity when there are no losses (or their sum is below the
1e-10 epsilon) but there are gains, 0 when there are neither; 0 on an
empty series. -/
def calcOmega (returns : List ℚ) (threshold : ℚ) : PyVal :=
  if returns.length = 0 then .val 0
  else
    let above := returns.filter (fun r => r > threshold)
    let below := returns.filter (fun r => r ≤ threshold)
    if below.length = 0 ∨ |below.sum| < 1 / 10 ^ 10 then
      (if above.length > 0 then .inf else .val 0)
    else .val (above.sum / |below.sum|)

/-- calculate_tail_ratio: absolute 95th-over-5th percentile, 0 when the
5th percentile is exactly 0; 0 on an empty series. -/
def calcTailRatioQ (returns : List ℚ) : ℚ :=
  if returns.length = 0 then 0
  else if percentileQ returns 5 ≠ 0 then |percentileQ returns 95 / percentileQ returns 5|
  else 0

/-- Claim C7: degenerate-input behaviour of the risk-metric helpers:
Omega is infinity with gains and no losses, 0 with neither; tail ratio is
0 when the 5th percentile is 0; CVaR falls back to VaR on an empty tail
set; and the empty series yields 0 everywhere. -/
theorem claim_c7 (rs : List ℚ) :
    ((∀ r ∈ rs, ¬ r ≤ 0) → (∃ r ∈ rs, 0 < r) → calcOmega rs 0 = .inf)
    ∧ ((∀ r ∈ rs, ¬ r ≤ 0) → (∀ r ∈ rs, ¬ 0 < r) → calcOmega rs 0 = .val 0)
    ∧ (percentileQ rs 5 = 0 → calcTailRatioQ rs = 0)
    ∧ (rs ≠ [] → (rs.filter (fun r => r ≤ -(calcVar rs (19/20)))).length = 0 →
        calcCvar rs (19/20) = calcVar rs (19/20))
    ∧ (calcVar [] (19/20) = 0 ∧ calcCvar [] (19/20) = 0
        ∧ calcOmega [] 0 = .val 0 ∧ calcTailRatioQ [] = 0) := by
  refine ⟨?_, ?_, ?_, ?_, rfl, rfl, rfl, rfl⟩
  · intro hno ⟨r, hr, hrpos⟩
    have hne : rs ≠ [] := by
      intro h
      rw [h] at hr
      exact absurd hr (List.not_mem_nil r)
    have hlen : ¬ rs.length = 0 := by
      simpa [List.length_eq_zero] using hne
    have hbelow : rs.filter (fun r => decide (r ≤ (0:ℚ))) = [] := by
      rw [List.filter_eq_nil_iff]
      intro a ha
      simpa using hno a ha
    have habove : 0 < (rs.filter (fun r => decide (r > (0:ℚ)))).length := by
      have hm : r ∈ rs.filter (fun r => decide (r > (0:ℚ))) :=
        List.mem_filter.mpr ⟨hr, by simpa using hrpos⟩
      exact List.length_pos.mpr (List.ne_nil_of_mem hm)
    simp only [calcOmega, if_neg hlen]
    rw [if_pos (Or.inl (by rw [hbelow]; rfl)), if_pos habove]
  · intro hno hnone
    have hrs : rs = [] := by
      cases rs with
      | nil => rfl
      | cons x xs =>
        have h1 := hno x (by simp)
        have h2 := hnone x (by simp)
        push_neg at h1 h2
        exact absurd (lt_of_lt_of_le h1 h2) (lt_irrefl 0)
    rw [hrs]
    rfl
  · intro h
    unfold calcTailRatioQ
    by_cases hlen : rs.length = 0
    · rw [if_pos hlen]
    · rw [if_neg hlen, if_neg (by simpa using h)]
  · intro hne hfil
    have hlen : ¬ rs.length = 0 := by
      simpa [List.length_eq_zero] using hne
    simp only [calcCvar, if_neg hlen]
    rw [if_neg (by rw [hfil]; omega)]

/-- Witness for C7 at concrete return series. -/
theorem claim_c7_witness :
    calcOmega [1] 0 = .inf
    ∧ calcTailRatioQ [0] = 0
    ∧ calcCvar [1] (19/20) = calcVar [1] (19/20) :=
  ⟨(claim_c7 [1]).1 (by decide) (by decide),
   (claim_c7 [0]).2.2.1 (by norm_num [percentileQ, sortQ, insSortedQ]),
   (claim_c7 [1]).2.2.2.1 (by decide)
     (by norm_num [calcVar, percentileQ, sortQ, insSortedQ, List.filter])⟩

/-! ## Beta and information ratio (src/agents/backtest_agent.py) -/

/-- Sum of squared deviations from the mean. -/
def centeredSqSum (xs : List ℚ) : ℚ :=
  (xs.map (fun x => (x - meanQ xs) ^ 2)).sum

/-- Sum of products of paired deviations from the two means. -/
def centeredProdSum (xs ys : List ℚ) : ℚ :=
  ((xs.zip ys).map (fun p => (p.1 - meanQ xs) * (p.2 - meanQ ys))).sum

/-- Sample variance with ddof 1, as pandas Series.var. -/
def sampleVarQ (xs : List ℚ) : ℚ :=
  centeredSqSum xs / ((xs.length : ℚ) - 1)

/-- Sample covariance with ddof 1, as the off-diagonal entry of np.cov. -/
def sampleCovQ (xs ys : List ℚ) : ℚ :=
  centeredProdSum xs ys / ((xs.length : ℚ) - 1)

/-- calculate_beta: 0 on a length mismatch, 0 when the benchmark standard
deviation is 0 (equivalently, over the reals, when its variance is 0),
else sample covariance over benchmark sample variance. -/
def betaVal (s b : List ℚ) : ℚ :=
  if s.length ≠ b.length then 0
  else if sampleVarQ b = 0 then 0
  else sampleCovQ s b / sampleVarQ b

/-- The per-bar return differential strategy minus benchmark. -/
def excessList (s b : List ℚ) : List ℚ :=
  (s.zip b).map (fun p => p.1 - p.2)

/-- calculate_information_ratio: 0 on a length mismatch, 0 when the
differential's standard deviation is 0, else mean over standard deviation
of the differential scaled by the square root of 252. -/
noncomputable def infoRatioVal (s b : List ℚ) : ℝ :=
  if s.length ≠ b.length then 0
  else if sampleVarQ (excessList s b) = 0 then 0
  else ((meanQ (excessList s b) : ℝ) / Real.sqrt ((sampleVarQ (excessList s b) : ℝ)))
        * Real.sqrt 252

/-- Claim C8: beta is 0 on length mismatch or zero benchmark variance and
otherwise equals covariance over variance (in ddof-free centered-sum
form); the information ratio is 0 when the differential has zero variance
and otherwise equals mean over standard deviation times the square root
of 252. -/
theorem claim_c8 (s b : List ℚ) (h2 : 2 ≤ b.length) :
    (s.length ≠ b.length → betaVal s b = 0 ∧ infoRatioVal s b = 0)
    ∧ (sampleVarQ b = 0 → betaVal s b = 0)
    ∧ (s.length = b.length → sampleVarQ b ≠ 0 →
        betaVal s b = centeredProdSum s b / centeredSqSum b)
    ∧ (sampleVarQ (excessList s b) = 0 → infoRatioVal s b = 0)
    ∧ (s.length = b.length → sampleVarQ (excessList s b) ≠ 0 →
        infoRatioVal s b = ((meanQ (excessList s b) : ℝ)
          / Real.sqrt ((sampleVarQ (excessList s b) : ℝ))) * Real.sqrt 252) := by
  refine ⟨?_, ?_, ?_, ?_, ?_⟩
  · intro h
    constructor
    · unfold betaVal
      rw [if_pos h]
    · unfold infoRatioVal
      rw [if_pos h]
  · intro hv
    unfold betaVal
    by_cases h : s.length ≠ b.length
    · rw [if_pos h]
    · rw [if_neg h, if_pos hv]
  · intro hl hv
    unfold betaVal
    rw [if_neg (by omega), if_neg hv]
    have hm : ((s.length : ℚ) - 1) ≠ 0 := by
      have : (2 : ℚ) ≤ (s.length : ℚ) := by
        rw [hl]
        exact_mod_cast h2
      intro h0
      rw [sub_eq_zero] at h0
      rw [h0] at this
      norm_num at this
    have hq : centeredSqSum b ≠ 0 := by
      intro h0
      exact hv (by rw [sampleVarQ, h0, zero_div])
    have hm2 : ((b.length : ℚ) - 1) ≠ 0 := by
      have hb : (2 : ℚ) ≤ (b.length : ℚ) := by
        exact_mod_cast h2
      intro h0
      rw [sub_eq_zero] at h0
      rw [h0] at hb
      norm_num at hb
    rw [sampleCovQ, sampleVarQ, hl]
    field_simp
  · intro hv
    unfold infoRatioVal
    by_cases h : s.length ≠ b.length
    · rw [if_pos h]
    · rw [if_neg h, if_pos hv]
  · intro hl hv
    unfold infoRatioVal
    rw [if_neg (by omega), if_neg hv]

/-- Witness for C8 at concrete return-series pairs. -/
theorem claim_c8_witness :
    betaVal [1, 3] [1, 2] = centeredProdSum [1, 3] [1, 2] / centeredSqSum [1, 2]
    ∧ infoRatioVal [2, 3] [1, 2] = 0 :=
  ⟨(claim_c8 [1, 3] [1, 2] (by decide)).2.2.1 (by decide)
      (by norm_num [sampleVarQ, centeredSqSum, meanQ]),
   (claim_c8 [2, 3] [1, 2] (by decide)).2.2.2.1
      (by norm_num [sampleVarQ, centeredSqSum, excessList, meanQ])⟩

/-! ## Evaluation / ranking (src/agents/evaluation_agent.py) -/

/-- One entry of the results mapping as seen by evaluate_node: the sharpe
key is present on metric records and absent on error records (which carry
only an error message). -/
structure EvalRec where
  sharpe : Option ℚ
  total_return : ℚ
deriving DecidableEq

/-- Stable insertion into a descending-sorted list: the new element passes
elements with strictly greater key and stops before the first element
whose key is less than or equal to its own. -/
def insDescBy {α : Type} (key : α → ℚ) (x : α) : List α → List α
  | [] => [x]
  | y :: ys => if key x < key y then y :: insDescBy key x ys else x :: y :: ys

/-- Stable descending insertion sort; equal keys keep their original
relative order, reproducing Python sorted with reverse set. -/
def sortDescBy {α : Type} (key : α → ℚ) : List α → List α
  | [] => []
  | x :: xs => insDescBy key x (sortDescBy key xs)

/-- evaluate_node: sorts the results items by the sharpe key descending;
an entry without the sharpe key (an error record) raises a KeyError. The
ranking order is the order of the returned names. -/
def evaluateNode (results : List (String × EvalRec)) : Except String (List String) :=
  if results.any (fun p => p.2.sharpe.isNone) then Except.error "KeyError: sharpe"
  else Except.ok ((sortDescBy (fun p => p.2.sharpe.getD 0) results).map Prod.fst)

lemma insDescBy_perm {α : Type} (key : α → ℚ) (x : α) (l : List α) :
    (insDescBy key x l).Perm (x :: l) := by
  induction l with
  | nil => exact List.Perm.refl _
  | cons y ys ih =>
    by_cases h : key x < key y
    · simp only [insDescBy, if_pos h]
      exact (ih.cons y).trans (List.Perm.swap x y ys)
    · simp only [insDescBy, if_neg h]
      exact List.Perm.refl _

lemma sortDescBy_perm {α : Type} (key : α → ℚ) (l : List α) :
    (sortDescBy key l).Perm l := by
  induction l with
  | nil => exact List.Perm.refl _
  | cons x xs ih =>
    exact (insDescBy_perm key x (sortDescBy key xs)).trans (ih.cons x)

lemma insDescBy_sorted {α : Type} (key : α → ℚ) (x : α) (l : List α)
    (h : l.Pairwise (fun a b => key b ≤ key a)) :
    (insDescBy key x l).Pairwise (fun a b => key b ≤ key a) := by
  induction l with
  | nil => simp [insDescBy]
  | cons y ys ih =>
    rw [List.pairwise_cons] at h
    obtain ⟨h1, h2⟩ := h
    by_cases hxy : key x < key y
    · simp only [insDescBy, if_pos hxy]
      rw [List.pairwise_cons]
      refine ⟨?_, ih h2⟩
      intro z hz
      rcases List.mem_cons.mp ((insDescBy_perm key x ys).mem_iff.mp hz) with rfl | hzys
      · exact hxy.le
      · exact h1 z hzys
    · simp only [insDescBy, if_neg hxy]
      rw [List.pairwise_cons]
      refine ⟨?_, List.pairwise_cons.mpr ⟨h1, h2⟩⟩
      intro z hz
      rcases List.mem_cons.mp hz with rfl | hzys
      · exact not_lt.mp hxy
      · exact le_trans (h1 z hzys) (not_lt.mp hxy)

lemma sortDescBy_sorted {α : Type} (key : α → ℚ) (l : List α) :
    (sortDescBy key l).Pairwise (fun a b => key b ≤ key a) := by
  induction l with
  | nil => simp [sortDescBy]
  | cons x xs ih => exact insDescBy_sorted key x (sortDescBy key xs) ih

/-- Claim C2 (amended): evaluate_node orders entries by the sharpe key
descending (the output names are those of a sorted permutation of the
input); ties between equal sharpe values keep insertion order (stable
sort) and are not broken by total return; entries recorded as error
records are not excluded but make evaluation fail with a KeyError. -/
theorem claim_c2 (results : List (String × EvalRec)) :
    ((∃ p ∈ results, p.2.sharpe = none) →
        evaluateNode results = Except.error "KeyError: sharpe")
    ∧ ((∀ p ∈ results, p.2.sharpe ≠ none) →
        ∃ l : List (String × EvalRec),
          evaluateNode results = Except.ok (l.map Prod.fst)
          ∧ l.Perm results
          ∧ l.Pairwise (fun a b => b.2.sharpe.getD 0 ≤ a.2.sharpe.getD 0)) := by
  constructor
  · intro h
    obtain ⟨p, hp, hnone⟩ := h
    unfold evaluateNode
    rw [if_pos (List.any_eq_true.mpr ⟨p, hp, by simp [hnone]⟩)]
  · intro h
    refine ⟨sortDescBy (fun p => p.2.sharpe.getD 0) results, ?_,
      sortDescBy_perm _ _, sortDescBy_sorted _ _⟩
    unfold evaluateNode
    rw [if_neg ?_]
    intro hany
    obtain ⟨p, hp, hnone⟩ := List.any_eq_true.mp hany
    exact h p hp (Option.isNone_iff_eq_none.mp hnone)

/-- Witness for C2 on a concrete results mapping with the sharpe key
present everywhere. -/
theorem claim_c2_witness :
    ∃ l : List (String × EvalRec),
      evaluateNode [("A", ⟨some 2, 0⟩), ("B", ⟨some 3, 0⟩)] = Except.ok (l.map Prod.fst)
      ∧ l.Perm [("A", ⟨some 2, 0⟩), ("B", ⟨some 3, 0⟩)]
      ∧ l.Pairwise (fun a b => b.2.sharpe.getD 0 ≤ a.2.sharpe.getD 0) :=
  (claim_c2 [("A", ⟨some 2, 0⟩), ("B", ⟨some 3, 0⟩)]).2 (by decide)

/-- Counterexample for C2 as stated: two strategies with equal Sharpe and
different total return are returned in insertion order (the one with the
lower total return first), so ties are not broken by total return; and a
results mapping containing an error record makes evaluation fail instead
of excluding the record from the ranking. -/
theorem claim_c2_cex :
    evaluateNode [("A", ⟨some 1, 1⟩), ("B", ⟨some 1, 2⟩)] = Except.ok ["A", "B"]
    ∧ (⟨some 1, 1⟩ : EvalRec).sharpe = (⟨some 1, 2⟩ : EvalRec).sharpe
    ∧ (⟨some 1, 1⟩ : EvalRec).total_return < (⟨some 1, 2⟩ : EvalRec).total_return
    ∧ (["A", "B"] : List String) ≠ ["B", "A"]
    ∧ evaluateNode [("good", ⟨some 1, 0⟩), ("bad", ⟨none, 0⟩)] =
        Except.error "KeyError: sharpe" := by
  refine ⟨?_, rfl, by norm_num, by decide, ?_⟩
  · norm_num [evaluateNode, sortDescBy, insDescBy]
  · norm_num [evaluateNode]

/-! ## backtest_node (src/agents/backtest_agent.py) -/

/-- A strategy signal: name plus entry and exit boolean series. -/
structure Strat where
  name : String
  entries : List Bool
  exits : List Bool
deriving DecidableEq

/-- Python-dict model: string-keyed finite maps as update functions. -/
def dictUpd {b : Type} (m : String -> Option b) (k : String) (v : b) : String -> Option b :=
  fun q => if q = k then some v else m q

/-- The body of the per-strategy backtest loop: simulate (the external
vectorbt portfolio construction and metric computation, abstracted as
sim), attach the benchmark comparison on success (abstracted as vs),
record the error message on failure. -/
def runStrategy {a : Type} (vs : a -> a -> a) (sim : Strat -> Except String a)
    (bench : a) (s : Strat) : Except String a :=
  match sim s with
  | Except.ok m => Except.ok (vs m bench)
  | Except.error e => Except.error e

/-- The results mapping built by backtest_node: one entry per strategy
keyed by its name, then the benchmark entry. -/
def backtestResults {a : Type} (vs : a -> a -> a) (sim : Strat -> Except String a)
    (bench : a) (strats : List Strat) : String -> Option (Except String a) :=
  dictUpd
    (strats.foldl (fun acc s => dictUpd acc s.name (runStrategy vs sim bench s))
      (fun _ => none))
    "benchmark" (Except.ok bench)

lemma foldl_dictUpd_notmem {a : Type} (vs : a -> a -> a) (sim : Strat -> Except String a)
    (bench : a) (strats : List Strat) (init : String -> Option (Except String a))
    (k : String) (h : forall t, t ∈ strats -> t.name ≠ k) :
    (strats.foldl (fun acc s => dictUpd acc s.name (runStrategy vs sim bench s)) init) k
      = init k := by
  induction strats generalizing init with
  | nil => rfl
  | cons t ts ih =>
    simp only [List.foldl_cons]
    rw [ih _ (fun u hu => h u (List.mem_cons_of_mem t hu))]
    unfold dictUpd
    rw [if_neg (Ne.symm (h t (List.mem_cons_self t ts)))]

lemma dictUpd_same {a : Type} (m : String -> Option a) (k : String) (v : a) :
    dictUpd m k v k = some v := by
  unfold dictUpd
  rw [if_pos rfl]

lemma dictUpd_other {a : Type} (m : String -> Option a) (k : String) (v : a)
    (q : String) (h : q ≠ k) : dictUpd m k v q = m q := by
  unfold dictUpd
  rw [if_neg h]

lemma foldl_dictUpd_mem {a : Type} (vs : a -> a -> a) (sim : Strat -> Except String a)
    (bench : a) (strats : List Strat) (s : Strat) :
    ∀ init : String -> Option (Except String a), s ∈ strats ->
      (strats.map (fun t => t.name)).Nodup ->
      (strats.foldl (fun acc s => dictUpd acc s.name (runStrategy vs sim bench s)) init) s.name
        = some (runStrategy vs sim bench s) := by
  induction strats with
  | nil =>
    intro init hmem _
    cases hmem
  | cons t ts ih =>
    intro init hmem hnodup
    simp only [List.map_cons, List.nodup_cons] at hnodup
    obtain ⟨hnin, hnd⟩ := hnodup
    simp only [List.foldl_cons]
    rcases List.mem_cons.mp hmem with rfl | hmem2
    · have hnot : forall u, u ∈ ts -> u.name ≠ s.name := by
        intro u hu he
        exact hnin (he ▸ List.mem_map_of_mem (fun t => t.name) hu)
      rw [foldl_dictUpd_notmem vs sim bench ts _ s.name hnot]
      exact dictUpd_same _ _ _
    · exact ih _ hmem2 hnd

/-- Claim C6: backtest_node isolates failures per strategy: a strategy
whose simulation fails is recorded under its name as an error record, the
entries of all other strategies depend only on their own simulation (so
are unaffected by the failure), and the results mapping always contains a
benchmark entry holding the benchmark metrics. -/
theorem claim_c6 {a : Type} (vs : a -> a -> a) (sim sim2 : Strat -> Except String a)
    (bench : a) (strats : List Strat)
    (hnodup : (strats.map (fun t => t.name)).Nodup)
    (hnb : forall t, t ∈ strats -> t.name ≠ "benchmark") :
    backtestResults vs sim bench strats "benchmark" = some (Except.ok bench)
    ∧ (forall s, s ∈ strats -> forall msg, sim s = Except.error msg ->
        backtestResults vs sim bench strats s.name = some (Except.error msg))
    ∧ (forall s, s ∈ strats ->
        (forall t, t ∈ strats -> t.name ≠ s.name -> sim t = sim2 t) ->
        forall t, t ∈ strats -> t.name ≠ s.name ->
          backtestResults vs sim bench strats t.name
            = backtestResults vs sim2 bench strats t.name) := by
  refine ⟨?_, ?_, ?_⟩
  · unfold backtestResults
    exact dictUpd_same _ _ _
  · intro s hs msg hmsg
    unfold backtestResults
    rw [dictUpd_other _ _ _ _ (hnb s hs)]
    rw [foldl_dictUpd_mem vs sim bench strats s _ hs hnodup]
    unfold runStrategy
    rw [hmsg]
  · intro s hs hagree t ht htn
    unfold backtestResults
    rw [dictUpd_other _ _ _ _ (hnb t ht), dictUpd_other _ _ _ _ (hnb t ht)]
    rw [foldl_dictUpd_mem vs sim bench strats t _ ht hnodup,
      foldl_dictUpd_mem vs sim2 bench strats t _ ht hnodup]
    unfold runStrategy
    rw [hagree t ht htn]

/-- A concrete simulation in which strategy B fails. -/
def simBoom : Strat -> Except String ℚ :=
  fun s => if s.name = "B" then Except.error "boom" else Except.ok 1

/-- Witness for C6 on two concrete strategies, the second of which fails. -/
theorem claim_c6_witness :
    backtestResults (fun m _ => m) simBoom 0 [⟨"A", [], []⟩, ⟨"B", [], []⟩] "benchmark"
      = some (Except.ok 0)
    ∧ (forall s, s ∈ [(⟨"A", [], []⟩ : Strat), ⟨"B", [], []⟩] ->
        forall msg, simBoom s = Except.error msg ->
        backtestResults (fun m _ => m) simBoom 0 [⟨"A", [], []⟩, ⟨"B", [], []⟩] s.name
          = some (Except.error msg))
    ∧ (forall s, s ∈ [(⟨"A", [], []⟩ : Strat), ⟨"B", [], []⟩] ->
        (forall t, t ∈ [(⟨"A", [], []⟩ : Strat), ⟨"B", [], []⟩] -> t.name ≠ s.name ->
          simBoom t = simBoom t) ->
        forall t, t ∈ [(⟨"A", [], []⟩ : Strat), ⟨"B", [], []⟩] -> t.name ≠ s.name ->
          backtestResults (fun m _ => m) simBoom 0 [⟨"A", [], []⟩, ⟨"B", [], []⟩] t.name
            = backtestResults (fun m _ => m) simBoom 0 [⟨"A", [], []⟩, ⟨"B", [], []⟩] t.name) :=
  claim_c6 (fun m _ => m) simBoom simBoom 0 [⟨"A", [], []⟩, ⟨"B", [], []⟩]
    (by decide) (by decide)

/-! ## Indicator computation (src/utils/indicators.py) -/

/-- A pandas cell value: finite, missing, or infinite. -/
inductive Cell where
  | val (q : ℚ)
  | nan
  | pinf
  | ninf
deriving DecidableEq

/-- A column-labelled frame, as handled by the indicator engine. -/
structure PFrame where
  cols : List String
  cells : List (List Cell)
deriving DecidableEq

/-- The five required price columns of add_basic_indicators. -/
def requiredCols : List String := ["open", "high", "low", "close", "volume"]

/-- The required columns absent from cols, as computed by
add_basic_indicators before raising. -/
def missingCols (cols : List String) : List String :=
  requiredCols.filter (fun c => !(cols.contains c))

/-- The np.inf replacement step of the final normalization. -/
def replaceInfCell : Cell -> Cell
  | .pinf => .nan
  | .ninf => .nan
  | c => c

/-- The fillna(0) step of the final normalization. -/
def fillnaCell : Cell -> Cell
  | .nan => .val 0
  | c => c

/-- result.replace([inf, -inf], nan).fillna(0), applied cell by cell. -/
def normalizeFrame (f : PFrame) : PFrame :=
  { f with cells := f.cells.map (fun row => row.map (fun c => fillnaCell (replaceInfCell c))) }

/-- add_basic_indicators: raises on missing required columns, else applies
the pandas_ta basic-indicator computation (abstracted as taBasic). -/
def addBasicIndicators (taBasic : PFrame -> PFrame) (df : PFrame) : Except String PFrame :=
  if missingCols df.cols ≠ [] then Except.error "DataFrame missing required columns"
  else Except.ok (taBasic df)

/-- calculate_all_indicators: the basic stage with its column check, the
advanced, trend and pattern stages (abstracted external indicator
kernels), then the final inf-to-nan-to-0 normalization. -/
def calculateAllIndicators (taBasic taAdv taTrend taPat : PFrame -> PFrame)
    (df : PFrame) : Except String PFrame :=
  match addBasicIndicators taBasic df with
  | Except.error e => Except.error e
  | Except.ok r => Except.ok (normalizeFrame (taPat (taTrend (taAdv r))))

/-- Claim C4: indicator computation fails if and only if at least one of
the five required columns is absent from the input frame; with all five
present the column check passes and no error is raised on that account. -/
theorem claim_c4 (taBasic taAdv taTrend taPat : PFrame -> PFrame) (df : PFrame) :
    (∃ e, calculateAllIndicators taBasic taAdv taTrend taPat df = Except.error e)
    ↔ ∃ c ∈ requiredCols, ¬ (df.cols.contains c = true) := by
  unfold calculateAllIndicators addBasicIndicators
  by_cases h : missingCols df.cols ≠ []
  · rw [if_pos h]
    constructor
    · intro _
      obtain ⟨c, hc⟩ := List.exists_mem_of_ne_nil _ h
      have hm := List.mem_filter.mp hc
      exact ⟨c, hm.1, by simpa using hm.2⟩
    · intro _
      exact ⟨"DataFrame missing required columns", rfl⟩
  · rw [if_neg h]
    push_neg at h
    constructor
    · intro ⟨e, he⟩
      exact absurd he (by simp)
    · intro ⟨c, hc, hnc⟩
      have : c ∈ missingCols df.cols :=
        List.mem_filter.mpr ⟨hc, by simpa using hnc⟩
      rw [h] at this
      exact absurd this (List.not_mem_nil c)

/-- Whether a cell holds a finite value. -/
def cellFinite : Cell -> Bool
  | .val _ => true
  | _ => false

/-- Claim C9: with all required columns present, full indicator
computation succeeds and the returned frame contains no infinite and no
missing cells: every cell of the normalized output is a finite value. -/
theorem claim_c9 (taBasic taAdv taTrend taPat : PFrame -> PFrame) (df : PFrame)
    (h : missingCols df.cols = []) :
    ∃ out, calculateAllIndicators taBasic taAdv taTrend taPat df = Except.ok out
      ∧ ∀ row ∈ out.cells, ∀ c ∈ row, cellFinite c = true := by
  refine ⟨normalizeFrame (taPat (taTrend (taAdv (taBasic df)))), ?_, ?_⟩
  · unfold calculateAllIndicators addBasicIndicators
    rw [if_neg (by simp [h])]
  · intro row hrow c hc
    unfold normalizeFrame at hrow
    simp only [List.mem_map] at hrow
    obtain ⟨r0, _, rfl⟩ := hrow
    simp only [List.mem_map] at hc
    obtain ⟨c0, _, rfl⟩ := hc
    cases c0 <;> rfl

/-- Witness for C9 on a concrete frame with all five required columns and
a nan, an infinite and a finite cell. -/
theorem claim_c9_witness :
    ∃ out, calculateAllIndicators id id id id
        ⟨requiredCols, [[Cell.nan, Cell.pinf, Cell.val 3]]⟩ = Except.ok out
      ∧ ∀ row ∈ out.cells, ∀ c ∈ row, cellFinite c = true :=
  claim_c9 id id id id ⟨requiredCols, [[Cell.nan, Cell.pinf, Cell.val 3]]⟩ (by decide)

end AgenticTrader
